import Mathlib

/-!
Verification of the session-scoped multi-document retrieval and
response-sanitization core of the PDF_QA_Bot rag-service.

The Python source (`rag-service/main.py`, `rag-service/utils/postprocess.py`)
is shallowly embedded below: strings are `List Char` / `String`, the regex
patterns used by the sanitizer are translated into small deterministic
matchers, the FAISS vector stores are abstracted as search functions, and the
global `sessions` dict is an association list threaded through the handlers.
Distances are modelled as rationals; `time.time()` timestamps, which the code
only ever compares against the TTL, as integers.
-/

set_option autoImplicit false

namespace PdfQaBot

/-! ## Characters: Python `\s`, ASCII case folding, character classes -/

/-- The whitespace characters matched by Python's `\s` (and stripped by
`str.strip()`) for `str` patterns: ASCII whitespace plus the Unicode
whitespace code points. -/
def isPySpace (c : Char) : Bool :=
  c == ' ' || c == '\t' || c == '\n' || c == '\r' || c == '\x0b' || c == '\x0c' ||
  c == '\x1c' || c == '\x1d' || c == '\x1e' || c == '\x1f' || c == '\x85' ||
  c.toNat == 0xa0 || c.toNat == 0x1680 ||
  (0x2000 ≤ c.toNat && c.toNat ≤ 0x200a) ||
  c.toNat == 0x2028 || c.toNat == 0x2029 || c.toNat == 0x202f ||
  c.toNat == 0x205f || c.toNat == 0x3000

/-- ASCII lower-casing, used to model `re.IGNORECASE` on the ASCII-only
literals appearing in the source's patterns. -/
def lowerA (c : Char) : Char :=
  if 'A' ≤ c ∧ c ≤ 'Z' then Char.ofNat (c.toNat + 32) else c

/-- Case-insensitive character comparison (`re.IGNORECASE`). -/
def chEq (a b : Char) : Bool := lowerA a == lowerA b

def isColonDash (c : Char) : Bool := c == ':' || c == '-'

def isNlChar (c : Char) : Bool := c == '\n'

def isAsciiLetter (c : Char) : Bool :=
  ('A' ≤ c ∧ c ≤ 'Z') || ('a' ≤ c ∧ c ≤ 'z')

/-- Python `\w` restricted to ASCII (all inputs considered here are ASCII). -/
def isWordChar (c : Char) : Bool := isAsciiLetter c || c.isDigit || c == '_'

/-! ## First-order matchers for the marker regexes

`(?:^|\n)\s*Answer\s*[:\-]?\s*\n?` (and the `Summary`/`Comparison` variants)
contain no ambiguity: every greedy step is forced because whitespace is
disjoint from `[:\-]`, from the keyword's first letter and from the pattern
end, so a single greedy pass reproduces Python's backtracking semantics. -/

/-- Consume `\s*` greedily. -/
def mWs : List Char → List Char
  | [] => []
  | c :: cs => if isPySpace c then mWs cs else c :: cs

/-- Consume a case-insensitive literal; `none` if it does not match here. -/
def mLit : List Char → List Char → Option (List Char)
  | [], cs => some cs
  | _ :: _, [] => none
  | k :: ks, c :: cs => if chEq k c then mLit ks cs else none

/-- Consume at most one character satisfying `p` (an optional class whose
continuation always succeeds, hence no backtracking is needed). -/
def mOpt1 (p : Char → Bool) : List Char → List Char
  | [] => []
  | c :: cs => if p c then cs else c :: cs

/-- The body of the marker regex after its `(?:^|\n)` anchor:
`\s*KW\s*[:\-]?\s*\n?` for the keyword `k0 :: ks`. Returns the remainder of
the text after the match (i.e. the position of `match.end()`). -/
def markerCore (k0 : Char) (ks : List Char) (cs : List Char) : Option (List Char) :=
  match mLit (k0 :: ks) (mWs cs) with
  | none => none
  | some r1 => some (mOpt1 isNlChar (mWs (mOpt1 isColonDash (mWs r1))))

/-- Attempt the full marker pattern at the current position: the `^` branch
when `atStart` (position 0; a leading `\n` is then absorbed by `\s*`, which
yields the same match set as the `\n` branch), otherwise the `\n` branch,
which consumes the newline standing at this position. -/
def tryAnchor (k0 : Char) (ks : List Char) (cs : List Char) (atStart : Bool) :
    Option (List Char) :=
  if atStart then markerCore k0 ks cs
  else
    match cs with
    | [] => none
    | c :: rest => if c = '\n' then markerCore k0 ks rest else none

/-! ## The `finditer` scan of `_split_on_marker` and the `re.search` of
`extract_clean_answer`

`scanLastF` reproduces `marker_re.finditer(text)` followed by taking the last
match: it scans left to right, at each position attempting the anchored
pattern; after a successful match it resumes at `match.end()` (matches are
non-overlapping), and it returns the remainder after the final match.
`firstAfterF` is `re.search`: the remainder after the first match only.
Both are defined with fuel (`length + 1` always suffices) so that they reduce
definitionally. -/

def scanLastF (k0 : Char) (ks : List Char) :
    Nat → List Char → Bool → Option (List Char)
  | 0, _, _ => none
  | fuel + 1, cs, b =>
    match tryAnchor k0 ks cs b with
    | some r =>
      match scanLastF k0 ks fuel r false with
      | some r2 => some r2
      | none => some r
    | none =>
      match cs with
      | [] => none
      | _ :: rest => scanLastF k0 ks fuel rest false

def firstAfterF (k0 : Char) (ks : List Char) :
    Nat → List Char → Bool → Option (List Char)
  | 0, _, _ => none
  | fuel + 1, cs, b =>
    match tryAnchor k0 ks cs b with
    | some r => some r
    | none =>
      match cs with
      | [] => none
      | _ :: rest => firstAfterF k0 ks fuel rest false

/-- Python `str.strip()`: remove leading and trailing whitespace. -/
def stripChars (cs : List Char) : List Char :=
  (mWs (mWs cs).reverse).reverse

/-- Python `_split_on_marker(text, marker_re)`: the text after the last `finditer`
match of the marker pattern, stripped; the text unchanged if there is no
match. -/
def splitOnMarker (k0 : Char) (ks : List Char) (cs : List Char) : List Char :=
  match scanLastF k0 ks (cs.length + 1) cs true with
  | none => cs
  | some r => stripChars r

/-! ## Backtracking pattern combinators for the echo filters

Each echo pattern of `_ECHO_PATTERNS` / `_SENTENCE_ECHO_PATTERNS` (and of the
inline `ECHO_PATTERNS` list in `main.py`) is an alternation-and-option
pattern over case-insensitive literals; the combinators below implement them
in continuation-passing style so optional groups and alternations backtrack
exactly as Python's engine does. -/

/-- A pattern fragment: takes the continuation and the input. -/
abbrev Pat := (List Char → Option (List Char)) → List Char → Option (List Char)

/-- Case-insensitive literal fragment. -/
def pLit (s : String) : Pat := fun k cs => (mLit s.data cs).bind k

/-- Fragment `\s*` (greedy; all following fragments here start with non-whitespace,
so greediness never needs to backtrack). -/
def pWs : Pat := fun k cs => k (mWs cs)

/-- Fragment `\s+`. -/
def pWs1 : Pat := fun k cs =>
  match cs with
  | [] => none
  | c :: r => if isPySpace c then k (mWs r) else none

/-- A single required character from a class. -/
def pCls (p : Char → Bool) : Pat := fun k cs =>
  match cs with
  | [] => none
  | c :: r => if p c then k r else none

/-- An optional character from a class, with backtracking. -/
def pClsOpt (p : Char → Bool) : Pat := fun k cs =>
  match cs with
  | [] => k []
  | c :: r =>
    if p c then
      match k r with
      | some out => some out
      | none => k (c :: r)
    else k (c :: r)

/-- An optional group `(?:...)?`, with backtracking. -/
def pOpt (m : Pat) : Pat := fun k cs =>
  match m k cs with
  | some out => some out
  | none => k cs

/-- Alternation `(?:a|b|...)`, preferring earlier branches, with
backtracking into the continuation. -/
def pAlt : List Pat → Pat
  | [], _, _ => none
  | m :: ms, k, cs =>
    match m k cs with
    | some out => some out
    | none => pAlt ms k cs

def dropDigits : List Char → List Char
  | [] => []
  | c :: cs => if c.isDigit then dropDigits cs else c :: cs

/-- Fragment `\d+` (greedy; never followed by a digit-compatible fragment here). -/
def pDigits1 : Pat := fun k cs =>
  match cs with
  | [] => none
  | c :: r => if c.isDigit then k (dropDigits r) else none

/-- Fragment `\d*`. -/
def pDigits0 : Pat := fun k cs => k (dropDigits cs)

/-- Sequence a list of fragments. -/
def pCat : List Pat → Pat
  | [], k, cs => k cs
  | m :: ms, k, cs => m (pCat ms k) cs

/-- Python `re.match`: does the pattern match at the start of the input? -/
def patMatch (m : Pat) (cs : List Char) : Bool := (m some cs).isSome

/-- Python `re.search`: does the pattern match anywhere in the input? -/
def patSearch (m : Pat) : List Char → Bool
  | [] => patMatch m []
  | c :: r => patMatch m (c :: r) || patSearch m r

def isBulletChar (c : Char) : Bool := c == '-' || c == '•' || c == '*'

def isDashEn (c : Char) : Bool := c == '-' || c.toNat == 0x2013

/-- The `_ECHO_PATTERNS` list of `utils/postprocess.py`, in source order; each entry
is anchored at line start (`re.match`) and case-insensitive. -/
def echoPats : List Pat :=
  [ pCat [pWs, pLit "Context", pWs, pCls isColonDash]
  , pCat [pWs, pLit "Question", pWs, pCls isColonDash]
  , pCat [pWs, pLit "Document", pWs, pCls isColonDash]
  , pCat [pWs, pLit "Document", pWs1,
      pAlt [pLit "Context", pLit "excerpt", pLit "below"], pWs, pClsOpt isColonDash]
  , pCat [pWs, pLit "Instruction", pOpt (pLit "s"), pWs, pCls isColonDash]
  , pCat [pWs, pLit "Conversation", pWs1, pLit "History", pWs, pCls isColonDash]
  , pCat [pWs, pLit "Current", pWs1, pLit "Question", pWs, pCls isColonDash]
  , pCat [pWs, pLit "Previous", pWs1, pLit "conversation", pWs, pClsOpt isColonDash]
  , pCat [pWs, pLit "History", pWs, pCls isColonDash]
  , pCat [pWs, pLit "Doc", pDigits1, pWs, pCls isColonDash]
  , pCat [pWs, pLit "RULES", pWs, pCls isColonDash]
  , pCat [pWs, pLit "You are a ", pAlt [pLit "helpful", pLit "precise", pLit "document"]]
  , pCat [pWs, pLit "Answer the question using"]
  , pCat [pWs, pLit "Use the document"]
  , pCat [pWs, pLit "Use only the ", pAlt [pLit "provided", pLit "document"]]
  , pCat [pWs, pLit "Read the document"]
  , pCat [pWs, pLit "If the answer is not"]
  , pCat [pWs, pLit "If ", pOpt (pLit "you "), pLit "cannot find"]
  , pCat [pWs, pLit "Keep the answer"]
  , pCat [pWs, pLit "Be brief"]
  , pCat [pWs, pLit "Be concise"]
  , pCat [pWs, pLit "Base your"]
  , pCat [pWs, pLit "Do NOT"]
  , pCat [pWs, pLit "Do not"]
  , pCat [pWs, pLit "Your response must"]
  , pCat [pWs, pLit "Your answer ", pAlt [pLit "must", pLit "should"]]
  , pCat [pWs, pLit "Never ", pAlt [pLit "include", pLit "repeat", pLit "add"]]
  , pCat [pWs, pLit "Only ", pAlt [pLit "use", pLit "return", pLit "output"]]
  , pCat [pWs, pLit "Respond ", pAlt [pLit "with", pLit "using", pLit "only"]]
  , pCat [pWs, pLit "Return ", pAlt [pLit "only", pLit "a", pLit "the"]]
  , pCat [pWs, pLit "Provide ", pLit "a ", pAlt [pLit "short", pLit "brief", pLit "concise"]]
  , pCat [pWs, pLit "Give a ", pAlt [pLit "short", pLit "brief", pLit "one-line"]]
  , pCat [pWs, pLit "Compare the documents"]
  , pCat [pWs, pLit "Summarize the document"]
  , pCat [pWs, pLit "In ", pDigits1, pClsOpt isDashEn, pDigits0, pLit " ",
      pAlt [pLit "bullet", pLit "key"]]
  , pCat [pWs, pCls isBulletChar, pWs, pLit "Use ONLY"]
  , pCat [pWs, pCls isBulletChar, pWs, pLit "Summarize in"]
  , pCat [pWs, pCls isBulletChar, pWs, pLit "Clearly distinguish"]
  , pCat [pWs, pCls isBulletChar, pWs, pLit "Return clean"]
  , pCat [pWs, pCls isBulletChar, pWs, pLit "Do NOT"]
  , pCat [pWs, pCls isBulletChar, pWs, pLit "list key"]
  , pCat [pWs, pCls isBulletChar, pWs, pLit "Give a"]
  , pCat [pWs, pLit "Summary", pWs, pLit "(bullet"]
  , pCat [pWs, pLit "Answer", pWs, pLit "(brief)"]
  , pCat [pWs, pLit "question-answering assistant"]
  , pCat [pWs, pLit "document comparison assistant"]
  ]

/-- The `_SENTENCE_ECHO_PATTERNS` list of `utils/postprocess.py` (searched anywhere in
a sentence, case-insensitive). -/
def sentencePats : List Pat :=
  [ pCat [pLit "Use ", pLit "only", pLit " the ",
      pAlt [pLit "provided", pLit "document"], pLit " ",
      pAlt [pLit "text", pLit "information", pLit "context"]]
  , pCat [pAlt [pLit "Do NOT", pLit "Do not", pLit "Never"], pLit " ",
      pAlt [pLit "repeat", pLit "include", pLit "add", pLit "invent"]]
  , pCat [pLit "Answer the question using only"]
  , pCat [pLit "Be brief and direct"]
  , pCat [pLit "If the answer is not ", pAlt [pLit "in", pLit "found in"],
      pLit " the document"]
  , pCat [pLit "based ", pAlt [pLit "solely", pLit "only"], pLit " on the ",
      pAlt [pLit "provided", pLit "document"]]
  ]

/-- The inline `ECHO_PATTERNS` list of `main.py` (`extract_clean_answer`),
in source order. -/
def echoPatsMain : List Pat :=
  [ pCat [pWs, pLit "Context", pWs, pCls isColonDash]
  , pCat [pWs, pLit "Question", pWs, pCls isColonDash]
  , pCat [pWs, pLit "Instruction", pOpt (pLit "s"), pWs, pCls isColonDash]
  , pCat [pWs, pLit "Conversation", pWs1, pLit "History", pWs, pCls isColonDash]
  , pCat [pWs, pLit "Document", pWs1, pLit "Context", pWs, pCls isColonDash]
  , pCat [pWs, pLit "Current", pWs1, pLit "Question", pWs, pCls isColonDash]
  , pCat [pWs, pLit "You are a helpful"]
  , pCat [pWs, pLit "Use the document"]
  , pCat [pWs, pLit "If the answer is not"]
  , pCat [pWs, pLit "Keep the answer"]
  , pCat [pWs, pLit "RULES", pWs, pCls isColonDash]
  , pCat [pWs, pLit "Summary", pWs, pLit "(bullet"]
  , pCat [pWs, pCls (· == '-'), pWs, pLit "Use ONLY"]
  , pCat [pWs, pCls (· == '-'), pWs, pLit "Summarize in"]
  , pCat [pWs, pCls (· == '-'), pWs, pLit "Clearly distinguish"]
  , pCat [pWs, pCls (· == '-'), pWs, pLit "Return clean"]
  ]

/-! ## Line splitting, sentence splitting, whitespace normalisation -/

/-- Line-break characters of Python `str.splitlines()`. -/
def isLineBreakChar (c : Char) : Bool :=
  c == '\n' || c == '\r' || c == '\x0b' || c == '\x0c' ||
  c == '\x1c' || c == '\x1d' || c == '\x1e' || c == '\x85' ||
  c.toNat == 0x2028 || c.toNat == 0x2029

/-- Worker for `splitLines`: `cur` is the current line, reversed. -/
def splitLinesGo : List Char → List Char → List (List Char)
  | cur, [] => if cur.isEmpty then [] else [cur.reverse]
  | cur, '\r' :: '\n' :: rest => cur.reverse :: splitLinesGo [] rest
  | cur, c :: rest =>
    if isLineBreakChar c then cur.reverse :: splitLinesGo [] rest
    else splitLinesGo (c :: cur) rest

/-- Python `str.splitlines()`. -/
def splitLines (cs : List Char) : List (List Char) := splitLinesGo [] cs

/-- Join lines with `'\n'.join`. -/
def joinWithNl : List (List Char) → List Char
  | [] => []
  | l :: ls => l ++ (ls.map (fun x => '\n' :: x)).flatten

/-- Join sentence parts with `' '.join`. -/
def joinWithSpace : List (List Char) → List Char
  | [] => []
  | l :: ls => l ++ (ls.map (fun x => ' ' :: x)).flatten

/-- Python `_filter_echo_lines`: drop lines matched by any echo pattern. -/
def filterEchoLines (pats : List Pat) (cs : List Char) : List Char :=
  joinWithNl ((splitLines cs).filter (fun ln => !(pats.any (fun m => patMatch m ln))))

def isTermChar : Option Char → Bool
  | some p => p == '.' || p == '?' || p == '!'
  | none => false

/-- Python `re.split(r'(?<=[.?!])\s+', text)`: split at whitespace runs preceded by
terminal punctuation (fuelled; `length + 1` fuel suffices). -/
def sentSplitF : Nat → List Char → List Char → List (List Char)
  | 0, cur, _ => [cur.reverse]
  | _ + 1, cur, [] => [cur.reverse]
  | fuel + 1, cur, c :: rest =>
    if isPySpace c && isTermChar cur.head? then
      cur.reverse :: sentSplitF fuel [] (mWs rest)
    else sentSplitF fuel (c :: cur) rest

/-- Python `_filter_echo_sentences`: drop sentences containing inline instruction
text, rejoining with single spaces. -/
def filterEchoSentences (cs : List Char) : List Char :=
  joinWithSpace ((sentSplitF (cs.length + 1) [] cs).filter
    (fun s => !(sentencePats.any (fun m => patSearch m s))))

def isSpaceTab (c : Char) : Bool := c == ' ' || c == '\t'

def dropSpaceTab : List Char → List Char
  | [] => []
  | c :: cs => if isSpaceTab c then dropSpaceTab cs else c :: cs

/-- Python `re.sub(r'[ \t]{2,}', ' ', _)`: collapse runs of two or more
spaces/tabs to a single space (fuelled). -/
def collapseSpacesF : Nat → List Char → List Char
  | 0, cs => cs
  | _ + 1, [] => []
  | fuel + 1, c :: cs =>
    if isSpaceTab c then
      match cs with
      | [] => [c]
      | d :: ds =>
        if isSpaceTab d then ' ' :: collapseSpacesF fuel (dropSpaceTab ds)
        else c :: collapseSpacesF fuel cs
    else c :: collapseSpacesF fuel cs

def dropNl : List Char → List Char
  | [] => []
  | c :: cs => if c = '\n' then dropNl cs else c :: cs

/-- Python `re.sub(r'\n{3,}', '\n\n', _)`: collapse runs of three or more newlines
to exactly two (fuelled). -/
def collapseNlF : Nat → List Char → List Char
  | 0, cs => cs
  | _ + 1, [] => []
  | fuel + 1, '\n' :: '\n' :: '\n' :: cs => '\n' :: '\n' :: collapseNlF fuel (dropNl cs)
  | fuel + 1, c :: cs => c :: collapseNlF fuel cs

/-! ## Character-spacing repair (`normalize_spaced_text`)

The regex `\b(?:[A-Za-z] ){2,}[A-Za-z]\b` with spaces removed in the match.
`spacedChain` collects the maximal alternating letter/space chain starting at
a letter; the greedy match then uses the whole chain when a word boundary
follows it, else backs off by one letter. -/

/-- Collect the maximal chain `L ( ' ' L )*` starting at a letter; returns
the chain letters and the text after the last chain letter. -/
def spacedChain : List Char → (List Char × List Char)
  | c :: ' ' :: d :: rest =>
    if isAsciiLetter d then
      let p := spacedChain (d :: rest)
      (c :: p.1, p.2)
    else ([c], ' ' :: d :: rest)
  | c :: cs => ([c], cs)
  | [] => ([], [])

/-- Is there a word boundary at the start of `cs` coming from a word char? -/
def boundaryAfter : List Char → Bool
  | [] => true
  | c :: _ => !(isWordChar c)

/-- Scanner for `normalize_spaced_text` (fuelled); `prevW` records whether
the previous character is a word character (for the leading `\b`). -/
def spacedFixF : Nat → Bool → List Char → List Char
  | 0, _, cs => cs
  | _ + 1, _, [] => []
  | fuel + 1, prevW, c :: cs =>
    if !prevW && isAsciiLetter c then
      let p := spacedChain (c :: cs)
      let t := p.1.length
      if decide (3 ≤ t) && boundaryAfter p.2 then
        p.1 ++ spacedFixF fuel true p.2
      else if 4 ≤ t then
        p.1.take (t - 1) ++ spacedFixF fuel true (' ' :: p.1.getLastD c :: p.2)
      else c :: spacedFixF fuel (isWordChar c) cs
    else c :: spacedFixF fuel (isWordChar c) cs

/-- Python `re.sub(r'\b(?:[A-Za-z] ){2,}[A-Za-z]\b', join, text)` — shared by
`normalize_spaced_text` (main.py) and `_normalize_spaced_text`
(postprocess.py). -/
def normalizeSpacedText (cs : List Char) : List Char :=
  spacedFixF (cs.length + 1) false cs

/-- The `leading_marker_re.sub("", raw)` of step 7: strip one leading
`KW\s*[:\-]\s*` (colon/dash required, anchored at position 0). -/
def leadStrip (k0 : Char) (ks : List Char) (cs : List Char) : List Char :=
  match mLit (k0 :: ks) cs with
  | none => cs
  | some r1 =>
    match mWs r1 with
    | [] => cs
    | c :: r2 => if isColonDash c then mWs r2 else cs

/-! ## The `_clean` pipeline of `utils/postprocess.py` and the public API -/

/-- Python `_clean(llm_output, marker_re, leading_marker_re, fallback)`. -/
def cleanPipeline (k0 : Char) (ks : List Char) (fallback : String) (s : String) :
    String :=
  let raw0 := stripChars s.data
  let raw1 := splitOnMarker k0 ks raw0
  let raw2 := filterEchoLines echoPats raw1
  let raw3 := filterEchoSentences raw2
  let raw4 := stripChars (collapseNlF (raw3.length + 1) (collapseSpacesF (raw3.length + 1) raw3))
  let raw5 := normalizeSpacedText raw4
  let raw6 := stripChars (leadStrip k0 ks raw5)
  if raw6.isEmpty then fallback else String.mk raw6

/-- Python `extract_final_answer` (utils/postprocess.py). -/
def extractFinalAnswer (s : String) : String :=
  cleanPipeline 'a' "nswer".data "I could not find a relevant answer in the document." s

/-- Python `extract_final_summary` (utils/postprocess.py). -/
def extractFinalSummary (s : String) : String :=
  cleanPipeline 's' "ummary".data "I could not generate a summary for this document." s

/-- Python `extract_comparison` (utils/postprocess.py). -/
def extractComparison (s : String) : String :=
  cleanPipeline 'c' "omparison".data "I could not generate a comparison for these documents." s

/-- The marker step of `extract_clean_answer` (main.py): `re.search` finds
the FIRST anchored marker match and the DOTALL `(.*)` group keeps everything
after it (then stripped); unchanged when there is no match. -/
def splitOnMarkerMainFirst (k0 : Char) (ks : List Char) (cs : List Char) :
    List Char :=
  match firstAfterF k0 ks (cs.length + 1) cs true with
  | none => cs
  | some r => stripChars r

/-- Python `extract_clean_answer` (main.py): first-match `re.search` on the Answer
marker with a DOTALL `(.*)` group, echo-line filter, whitespace collapse,
spaced-text repair, fallback. -/
def extractCleanAnswerMain (s : String) : String :=
  let raw0 := s.data
  let raw1 := splitOnMarkerMainFirst 'a' "nswer".data raw0
  let raw2 := filterEchoLines echoPatsMain raw1
  let raw3 := stripChars (collapseNlF (raw2.length + 1) (collapseSpacesF (raw2.length + 1) raw2))
  let raw4 := normalizeSpacedText raw3
  if raw4.isEmpty then "I could not find a relevant answer in the document."
  else String.mk raw4

/-! ## Session store and multi-document retrieval (main.py)

A langchain `Document` is reduced to its `page_content` (the only field the
retrieval code reads); a FAISS vector store is abstracted as its
`similarity_search` function; `sessions` is an insertion-ordered association
list mirroring the Python dict; `time.time()` values are rationals. -/

structure LCDoc where
  page_content : String
deriving DecidableEq

structure VectorStore where
  search : String → Nat → List LCDoc

structure SessionData where
  docs : List (String × VectorStore)
  last_accessed : ℤ

abbrev Sessions := List (String × SessionData)

/-- Python `SESSION_TIMEOUT = 3600`. -/
def SESSION_TIMEOUT : ℤ := 3600

/-- Python `cleanup_expired_sessions()`: delete every session with
`now - last_accessed > SESSION_TIMEOUT`. -/
def cleanupExpiredSessions (now : ℤ) (ss : Sessions) : Sessions :=
  ss.filter (fun e => !(decide (now - e.2.last_accessed > SESSION_TIMEOUT)))

/-- Python `sessions.get(sid)` (first-match lookup; dict keys are unique). -/
def lookupSession : Sessions → String → Option SessionData
  | [], _ => none
  | (s, d) :: rest, sid => if s = sid then some d else lookupSession rest sid

/-- Python `sessions[sid] = data`: replace in place, or append if absent
(Python dict assignment keeps insertion order). -/
def setSession : Sessions → String → SessionData → Sessions
  | [], sid, d => [(sid, d)]
  | (s, e) :: rest, sid, d =>
    if s = sid then (sid, d) :: rest else (s, e) :: setSession rest sid d

/-- Mutate the session stored under `sid` (no-op when absent). -/
def updateSession : Sessions → String → (SessionData → SessionData) → Sessions
  | [], _, _ => []
  | (s, e) :: rest, sid, f =>
    if s = sid then (s, f e) :: rest else (s, e) :: updateSession rest sid f

/-- Python `docs[d]` lookup in a session's document dict. -/
def lookupDoc : List (String × VectorStore) → String → Option VectorStore
  | [], _ => none
  | (s, v) :: rest, d => if s = d then some v else lookupDoc rest d

/-- Python `docs[doc_id] = vs`. -/
def setDoc : List (String × VectorStore) → String → VectorStore → List (String × VectorStore)
  | [], d, vs => [(d, vs)]
  | (s, e) :: rest, d, vs =>
    if s = d then (d, vs) :: rest else (s, e) :: setDoc rest d vs

/-- Python `get_session_docs(session_id, doc_ids)`: all of the session's stores, or
— when `doc_ids` is non-empty — `[all_docs[d] for d in doc_ids if d in all_docs]`
(requested order, missing ids skipped). -/
def getSessionDocs (ss : Sessions) (sid : String) (docIds : List String) :
    List VectorStore :=
  match lookupSession ss sid with
  | none => []
  | some sd =>
    if docIds.isEmpty then sd.docs.map (fun e => e.2)
    else docIds.filterMap (fun d => lookupDoc sd.docs d)

/-- Python `per_store_k = max(k, k * 2 // max(len(vectorstores), 1))`. -/
def perStoreK (k n : Nat) : Nat := max k (k * 2 / max n 1)

/-- The shared `seen`-set loop of `merged_similarity_search`: keep each
document whose `page_content` has not been seen yet. -/
def dedupSeenDocs (seen : List String) : List LCDoc → List LCDoc
  | [] => []
  | d :: ds =>
    if d.page_content ∈ seen then dedupSeenDocs seen ds
    else d :: dedupSeenDocs (d.page_content :: seen) ds

/-- Python `merged_similarity_search(vectorstores, query, k)`: query every store
with `per_store_k`, concatenate in store order (the Python nested loop visits
exactly this flattened sequence with one shared `seen` set), de-duplicate by
content, truncate to `k * len(vectorstores)`. -/
def mergedSimilaritySearch (stores : List VectorStore) (query : String)
    (k : Nat) : List LCDoc :=
  let pk := perStoreK k stores.length
  let all := (stores.map (fun vs => vs.search query pk)).flatten
  (dedupSeenDocs [] all).take (k * stores.length)

/-! ## Endpoint handlers (main.py)

The externally-provided pieces — PDF loading/splitting, FAISS index
construction, UUID generation and model generation — enter as parameters
(`chunks`, `buildIndex`, `newDocId`, `gen`); everything else is translated
from the handlers. Each handler returns the updated session store together
with its response string. -/

structure ChatMsg where
  role : String
  content : String

/-- Python `history[-5:]`. -/
def lastN {α : Type} (n : Nat) (l : List α) : List α := l.drop (l.length - n)

/-- Python `"sep".join(parts)`. -/
def joinSep (sep : String) : List String → String
  | [] => ""
  | x :: xs => xs.foldl (fun a b => a ++ sep ++ b) x

/-- The result of `/process-pdf`. -/
inductive IngestResult where
  | error (msg : String)
  | ok (message : String) (docId : String)
deriving DecidableEq

/-- Python `process_pdf` (main.py): sweep, split check, index build, session
creation/attachment. -/
def processPdf (buildIndex : List LCDoc → VectorStore) (newDocId : String)
    (ss : Sessions) (now : ℤ) (sid : String) (chunks : List LCDoc) :
    Sessions × IngestResult :=
  let ss0 := cleanupExpiredSessions now ss
  if chunks.isEmpty then
    (ss0, .error "No text chunks generated from the PDF. Please check your file.")
  else
    let vs := buildIndex chunks
    let ss1 := if (lookupSession ss0 sid).isNone then setSession ss0 sid ⟨[], now⟩ else ss0
    let ss2 := updateSession ss1 sid (fun sd => { sd with docs := setDoc sd.docs newDocId vs })
    let ss3 := updateSession ss2 sid (fun sd => { sd with last_accessed := now })
    (ss3, .ok "PDF processed successfully" newDocId)

/-- Python `ask_question` (main.py). `gen` abstracts `generate_response`
(the external model call). -/
def askQuestion (gen : String → String) (ss : Sessions) (now : ℤ)
    (question : String) (sid : String) (docIds : List String)
    (history : List ChatMsg) : Sessions × String :=
  let ss0 := cleanupExpiredSessions now ss
  match lookupSession ss0 sid with
  | none => (ss0, "Session expired or no PDF uploaded for this session.")
  | some sd =>
    let ss1 := setSession ss0 sid { sd with last_accessed := now }
    let stores := getSessionDocs ss1 sid docIds
    if stores.isEmpty then (ss1, "No documents found for the selected session.")
    else
      let convo := (lastN 5 history).foldl
        (fun acc m => acc ++ m.role ++ ": " ++ m.content ++ "\n") ""
      let docs := mergedSimilaritySearch stores question 4
      if docs.isEmpty then (ss1, "No relevant context found in the selected documents.")
      else
        let context := joinSep "\n\n" (docs.map (fun d => d.page_content))
        let convStripped := String.mk (stripChars convo.data)
        let convBlock :=
          if convStripped ≠ "" then "Previous conversation:\n" ++ convStripped ++ "\n\n" else ""
        let prompt :=
          "You are a precise question-answering assistant.\n" ++
          "Read the document excerpt below and answer the question using ONLY the provided information.\n" ++
          "Your response must be a short, direct answer with no extra explanation.\n" ++
          "Do NOT repeat the question, context, or any instructions.\n\n" ++
          convBlock ++
          "Document excerpt:\n" ++ context ++ "\n\n" ++
          "Question: " ++ question ++ "\n\n" ++
          "Answer:"
        (ss1, extractCleanAnswerMain (gen prompt))

/-- Python `summarize_pdf` (main.py). -/
def summarizePdf (gen : String → String) (ss : Sessions) (now : ℤ)
    (sid : String) (docIds : List String) : Sessions × String :=
  let ss0 := cleanupExpiredSessions now ss
  match lookupSession ss0 sid with
  | none => (ss0, "Session expired or no PDF uploaded for this session.")
  | some sd =>
    let ss1 := setSession ss0 sid { sd with last_accessed := now }
    let stores := getSessionDocs ss1 sid docIds
    if stores.isEmpty then (ss1, "No documents found for the selected session.")
    else
      let docs := mergedSimilaritySearch stores "Give a concise summary of the document." 6
      if docs.isEmpty then (ss1, "No document context available to summarize.")
      else
        let context := joinSep "\n\n" (docs.map (fun d => d.page_content))
        let prompt :=
          "Summarize the following document excerpt in 5-7 clear bullet points.\n" ++
          "Each bullet point must state one key fact (who, what, when, where, or why).\n" ++
          "Use ONLY the information provided below. Do NOT add assumptions.\n" ++
          "Do NOT repeat these instructions in your response.\n\n" ++
          "Document excerpt:\n" ++ context ++ "\n\n" ++
          "Summary:"
        (ss1, extractCleanAnswerMain (gen prompt))

/-- Python `compare_documents` (main.py). -/
def compareDocuments (gen : String → String) (ss : Sessions) (now : ℤ)
    (sid : String) (docIds : List String) : Sessions × String :=
  let ss0 := cleanupExpiredSessions now ss
  match lookupSession ss0 sid with
  | none => (ss0, "Session expired or no PDFs uploaded for this session.")
  | some sd =>
    if docIds.length < 2 then (ss0, "Please select at least 2 documents to compare.")
    else
      let ss1 := setSession ss0 sid { sd with last_accessed := now }
      let stores := getSessionDocs ss1 sid docIds
      if stores.length < 2 then
        (ss1, "Could not find enough documents in the session. Please re-upload.")
      else
        let query := "summarize the main topic, purpose, and key details of this document"
        let perDoc := (stores.enum.map (fun p =>
          "Document " ++ toString (p.1 + 1) ++ ":\n" ++
          joinSep "\n" ((p.2.search query 4).map (fun c => c.page_content))))
        let combined := joinSep "\n\n---\n\n" perDoc
        let prompt :=
          "You are a document comparison assistant.\n" ++
          "Compare the documents below and produce a structured comparison with:\n" ++
          "1. A brief overview of each document.\n" ++
          "2. Key similarities.\n" ++
          "3. Key differences.\n" ++
          "Base your comparison ONLY on the provided excerpts. Do NOT invent information.\n" ++
          "Do NOT repeat these instructions.\n\n" ++
          combined ++ "\n\n" ++
          "Comparison:"
        (ss1, extractCleanAnswerMain (gen prompt))

/-! ## ConfidenceScorer (spec §4.4) and CitationBuilder (spec §4.5)

These two components are not present in the `rag-service` sources (only the
citation tests are), so they are modelled from the specification text. -/

/-- Modelled from the spec: `toSimilarity(distance) = clamp(1 - distance/2, 0, 1)`
(ConfidenceScorer, spec §4.4); the scorer itself is absent from the sources. -/
def toSimilarity (d : ℚ) : ℚ := max 0 (min 1 (1 - d / 2))

/-- Round a rational to the nearest integer (half up): `⌊x + 1/2⌋`, computed
as a floor division on numerator and denominator. -/
def roundQ (x : ℚ) : ℤ := (2 * x.num + x.den).fdiv (2 * (x.den : ℤ))

/-- Modelled from the spec: rounding to one decimal place. -/
def roundTo1 (x : ℚ) : ℚ := (roundQ (x * 10) : ℚ) / 10

/-- Modelled from the spec: `confidence(distances)` — take the 3 smallest
distances (or fewer), convert each to similarity, average, express as a
percentage rounded to one decimal; empty input yields 0.0 (ConfidenceScorer,
spec §4.4); the scorer itself is absent from the sources. -/
def confidence (ds : List ℚ) : ℚ :=
  if ds.isEmpty then 0
  else
    let top := (List.insertionSort (· ≤ ·) ds).take 3
    roundTo1 (100 * ((top.map toSimilarity).sum / top.length))

/-- Modelled from the spec: the fields of a retrieved chunk that
CitationBuilder reads — the source display name and the 0-based page (absent
for non-paginated sources); the builder itself is absent from the sources. -/
structure SpecChunk where
  sourceName : String
  page : Option Nat
deriving DecidableEq

/-- A citation record `{source, page}`; `page` is 1-based, omitted when the
chunk had no page. -/
structure Citation where
  source : String
  page : Option Nat
deriving DecidableEq

/-- The citation derived from a chunk: `page + 1` when present. -/
def toCitation (c : SpecChunk) : Citation :=
  ⟨c.sourceName, c.page.map (fun p => p + 1)⟩

/-- Ordering on optional pages: an absent page sorts first. -/
def pageLeB : Option Nat → Option Nat → Bool
  | none, _ => true
  | some _, none => false
  | some m, some n => decide (m ≤ n)

/-- Strict character order by code point. -/
def charLtB (a b : Char) : Bool := decide (a.toNat < b.toNat)

/-- Strict lexicographic order on strings (as character lists). -/
def strLtB : List Char → List Char → Bool
  | [], [] => false
  | [], _ :: _ => true
  | _ :: _, [] => false
  | a :: as, b :: bs => charLtB a b || (a == b && strLtB as bs)

/-- Ascending `(source, page)` order on citations. -/
def citLeB (a b : Citation) : Bool :=
  strLtB a.source.data b.source.data || (a.source == b.source && pageLeB a.page b.page)

def citLe (a b : Citation) : Prop := citLeB a b = true

instance : DecidableRel citLe := fun a b =>
  inferInstanceAs (Decidable (citLeB a b = true))

/-- Keep-first deduplication of citations (`seen` accumulates emitted
citations). -/
def dedupCitGo (seen : List Citation) : List Citation → List Citation
  | [] => []
  | c :: cs =>
    if c ∈ seen then dedupCitGo seen cs
    else c :: dedupCitGo (c :: seen) cs

/-- Modelled from the spec: `build(chunks)` — map chunks to citations,
deduplicate by the `(source, page)` pair keeping first occurrences, sort
ascending by `(source, page)` (CitationBuilder, spec §4.5); the builder
itself is absent from the sources. -/
def buildCitations (chunks : List SpecChunk) : List Citation :=
  List.insertionSort citLe (dedupCitGo [] (chunks.map toCitation))

/-! ## Reference definitions used in the statements

These restate, independently of the loop-with-`seen`-set code shape or of the
non-overlapping scan, what the specification's words describe; the theorems
below compare them with the translated source functions. -/

/-- Keep-first deduplication by chunk text, written as the specification
describes it (first occurrence of each text kept, later duplicates dropped). -/
def specDedupByText : List LCDoc → List LCDoc
  | [] => []
  | d :: ds =>
    d :: specDedupByText (ds.filter (fun e => !(e.page_content == d.page_content)))
termination_by l => l.length
decreasing_by
  exact Nat.lt_succ_of_le (List.length_filter_le _ _)

/-- All remainders of marker matches anchored at every line-start position of
the text (position 0 and every newline), in position order — the claim's
reading, which does not skip positions inside an earlier match. -/
def allAnchoredRemainders (k0 : Char) (ks : List Char) :
    List Char → Bool → List (List Char)
  | [], b =>
    match tryAnchor k0 ks [] b with
    | some r => [r]
    | none => []
  | c :: rest, b =>
    (match tryAnchor k0 ks (c :: rest) b with
     | some r => [r]
     | none => []) ++ allAnchoredRemainders k0 ks rest false

/-- The marker-split step as the claim reads it: discard everything up to and
including the last line-start marker occurrence, keep the (stripped)
remainder; unchanged when no occurrence exists. -/
def specLastSplit (k0 : Char) (ks : List Char) (cs : List Char) : List Char :=
  match (allAnchoredRemainders k0 ks cs true).getLast? with
  | none => cs
  | some r => stripChars r

/-- Does the keyword `k0 :: ks` occur (case-insensitively) anywhere in the
text? -/
def containsKw (k0 : Char) (ks : List Char) : List Char → Bool
  | [] => false
  | c :: r => (mLit (k0 :: ks) (c :: r)).isSome || containsKw k0 ks r

/-- Concrete fixture: a store returning one fixed chunk for any query. -/
def wStoreConst (t : String) : VectorStore := ⟨fun _ _ => [⟨t⟩]⟩

/-- Concrete fixture: a store returning a chunk only when asked for exactly
two candidates. -/
def wStoreAt2 : VectorStore := ⟨fun _ n => if n = 2 then [⟨"a"⟩] else []⟩

/-! ## Lemmas about the matchers -/

theorem mWs_length_le (cs : List Char) : (mWs cs).length ≤ cs.length := by
  induction cs with
  | nil => simp [mWs]
  | cons c cs ih =>
    simp only [mWs]
    split
    · exact Nat.le_succ_of_le ih
    · exact Nat.le_refl _

theorem mLit_length_le (ks : List Char) :
    ∀ cs r : List Char, mLit ks cs = some r → r.length ≤ cs.length := by
  induction ks with
  | nil => intro cs r h; simp [mLit] at h; simp [h]
  | cons k ks ih =>
    intro cs r h
    cases cs with
    | nil => simp [mLit] at h
    | cons c cs =>
      simp only [mLit] at h
      split at h
      · exact Nat.le_succ_of_le (ih cs r h)
      · exact absurd h (by simp)

theorem mLit_cons_length_lt (k : Char) (ks : List Char) :
    ∀ cs r : List Char, mLit (k :: ks) cs = some r → r.length < cs.length := by
  intro cs r h
  cases cs with
  | nil => simp [mLit] at h
  | cons c cs =>
    simp only [mLit] at h
    split at h
    · exact Nat.lt_succ_of_le (mLit_length_le ks cs r h)
    · exact absurd h (by simp)

theorem mOpt1_length_le (p : Char → Bool) (cs : List Char) :
    (mOpt1 p cs).length ≤ cs.length := by
  cases cs with
  | nil => simp [mOpt1]
  | cons c cs =>
    simp only [mOpt1]
    split
    · exact Nat.le_succ_of_le (Nat.le_refl _)
    · exact Nat.le_refl _

theorem markerCore_length_lt (k0 : Char) (ks cs r : List Char)
    (h : markerCore k0 ks cs = some r) : r.length < cs.length := by
  simp only [markerCore] at h
  cases hl : mLit (k0 :: ks) (mWs cs) with
  | none => rw [hl] at h; exact absurd h (by simp)
  | some r1 =>
    rw [hl] at h
    simp only [Option.some.injEq] at h
    subst h
    calc (mOpt1 isNlChar (mWs (mOpt1 isColonDash (mWs r1)))).length
        ≤ (mWs (mOpt1 isColonDash (mWs r1))).length := mOpt1_length_le _ _
      _ ≤ (mOpt1 isColonDash (mWs r1)).length := mWs_length_le _
      _ ≤ (mWs r1).length := mOpt1_length_le _ _
      _ ≤ r1.length := mWs_length_le _
      _ < (mWs cs).length := mLit_cons_length_lt k0 ks _ _ hl
      _ ≤ cs.length := mWs_length_le cs

theorem tryAnchor_length_lt (k0 : Char) (ks cs r : List Char) (b : Bool)
    (h : tryAnchor k0 ks cs b = some r) : r.length < cs.length := by
  simp only [tryAnchor] at h
  split at h
  · exact markerCore_length_lt k0 ks cs r h
  · cases cs with
    | nil => simp at h
    | cons c rest =>
      simp only at h
      split at h
      · exact Nat.lt_succ_of_lt (markerCore_length_lt k0 ks rest r h)
      · exact absurd h (by simp)

theorem mWs_suffix (cs : List Char) : (mWs cs) <:+ cs := by
  induction cs with
  | nil => simp [mWs]
  | cons c cs ih =>
    simp only [mWs]
    split
    · exact ih.trans (List.suffix_cons c cs)
    · exact List.suffix_refl _

theorem mOpt1_suffix (p : Char → Bool) (cs : List Char) : (mOpt1 p cs) <:+ cs := by
  cases cs with
  | nil => simp [mOpt1]
  | cons c cs =>
    simp only [mOpt1]
    split
    · exact List.suffix_cons c cs
    · exact List.suffix_refl _

theorem mLit_suffix (ks : List Char) :
    ∀ cs r : List Char, mLit ks cs = some r → r <:+ cs := by
  induction ks with
  | nil =>
    intro cs r h
    simp [mLit] at h
    simp [h]
  | cons k ks ih =>
    intro cs r h
    cases cs with
    | nil => simp [mLit] at h
    | cons c cs =>
      simp only [mLit] at h
      split at h
      · exact (ih cs r h).trans (List.suffix_cons c cs)
      · exact absurd h (by simp)

theorem markerCore_suffix (k0 : Char) (ks cs r : List Char)
    (h : markerCore k0 ks cs = some r) : r <:+ cs := by
  simp only [markerCore] at h
  cases hl : mLit (k0 :: ks) (mWs cs) with
  | none => rw [hl] at h; exact absurd h (by simp)
  | some r1 =>
    rw [hl] at h
    simp only [Option.some.injEq] at h
    subst h
    exact ((((mOpt1_suffix isNlChar _).trans (mWs_suffix _)).trans
      (mOpt1_suffix isColonDash _)).trans (mWs_suffix r1)).trans
      ((mLit_suffix _ _ _ hl).trans (mWs_suffix cs))

theorem tryAnchor_suffix (k0 : Char) (ks cs r : List Char) (b : Bool)
    (h : tryAnchor k0 ks cs b = some r) : r <:+ cs := by
  simp only [tryAnchor] at h
  split at h
  · exact markerCore_suffix k0 ks cs r h
  · cases cs with
    | nil => simp at h
    | cons c rest =>
      simp only at h
      split at h
      · exact (markerCore_suffix k0 ks rest r h).trans (List.suffix_cons c rest)
      · exact absurd h (by simp)

/-! ## Lemmas about the `finditer` scan -/

theorem scanLastF_fuel (k0 : Char) (ks : List Char) :
    ∀ (f : Nat) (cs : List Char) (b : Bool) (g : Nat),
      cs.length < f → cs.length < g →
      scanLastF k0 ks f cs b = scanLastF k0 ks g cs b := by
  intro f
  induction f with
  | zero => intro cs b g hf; exact absurd hf (Nat.not_lt_zero _)
  | succ f ih =>
    intro cs b g hf hg
    cases g with
    | zero => exact absurd hg (Nat.not_lt_zero _)
    | succ g =>
      simp only [scanLastF]
      cases ha : tryAnchor k0 ks cs b with
      | some r =>
        have hr : r.length < cs.length := tryAnchor_length_lt k0 ks cs r b ha
        show (match scanLastF k0 ks f r false with
              | some r2 => some r2
              | none => some r) =
            (match scanLastF k0 ks g r false with
              | some r2 => some r2
              | none => some r)
        rw [ih r false g (Nat.lt_of_lt_of_le hr (Nat.lt_succ_iff.mp hf))
          (Nat.lt_of_lt_of_le hr (Nat.lt_succ_iff.mp hg))]
      | none =>
        cases cs with
        | nil => rfl
        | cons c rest =>
          exact ih rest false g (Nat.lt_of_succ_lt_succ hf) (Nat.lt_of_succ_lt_succ hg)

theorem mLit_suffix_containsKw (k0 : Char) (ks : List Char) :
    ∀ (cs t : List Char), t <:+ cs → (mLit (k0 :: ks) t).isSome →
      containsKw k0 ks cs = true := by
  intro cs
  induction cs with
  | nil =>
    intro t ht hm
    rw [List.suffix_nil.mp ht] at hm
    simp [mLit] at hm
  | cons c rest ih =>
    intro t ht hm
    rcases List.suffix_cons_iff.mp ht with h | h
    · subst h
      simp only [containsKw, Bool.or_eq_true]
      exact Or.inl hm
    · simp only [containsKw, Bool.or_eq_true]
      exact Or.inr (ih t h hm)

theorem markerCore_containsKw (k0 : Char) (ks cs r : List Char)
    (h : markerCore k0 ks cs = some r) : containsKw k0 ks cs = true := by
  simp only [markerCore] at h
  cases hl : mLit (k0 :: ks) (mWs cs) with
  | none => rw [hl] at h; exact absurd h (by simp)
  | some r1 =>
    exact mLit_suffix_containsKw k0 ks cs (mWs cs) (mWs_suffix cs) (by simp [hl])

theorem containsKw_of_tail (k0 : Char) (ks : List Char) (c : Char) (rest : List Char)
    (h : containsKw k0 ks rest = true) : containsKw k0 ks (c :: rest) = true := by
  simp only [containsKw, Bool.or_eq_true]
  exact Or.inr h

theorem tryAnchor_containsKw (k0 : Char) (ks cs r : List Char) (b : Bool)
    (h : tryAnchor k0 ks cs b = some r) : containsKw k0 ks cs = true := by
  simp only [tryAnchor] at h
  split at h
  · exact markerCore_containsKw k0 ks cs r h
  · cases cs with
    | nil => simp at h
    | cons c rest =>
      simp only at h
      split at h
      · exact containsKw_of_tail k0 ks c rest (markerCore_containsKw k0 ks rest r h)
      · exact absurd h (by simp)

/-- If the keyword occurs nowhere, the scan finds no match. -/
theorem scanLastF_none_of_no_kw (k0 : Char) (ks : List Char) :
    ∀ (f : Nat) (cs : List Char) (b : Bool),
      containsKw k0 ks cs = false → scanLastF k0 ks f cs b = none := by
  intro f
  induction f with
  | zero => intro cs b _; rfl
  | succ f ih =>
    intro cs b hk
    simp only [scanLastF]
    cases ha : tryAnchor k0 ks cs b with
    | some r => exact absurd (tryAnchor_containsKw k0 ks cs r b ha) (by simp [hk])
    | none =>
      cases cs with
      | nil => rfl
      | cons c rest =>
        have : containsKw k0 ks rest = false := by
          by_contra hc
          have := containsKw_of_tail k0 ks c rest (Bool.of_not_eq_false hc)
          simp [hk] at this
        exact ih rest false this

/-- Decomposition of a successful scan: the input splits as
`pre ++ mid ++ post`, `mid` is an anchored marker match ending exactly at
`post`, the scan's answer is `post`, and no further scan match exists in
`post`. -/
theorem scanLastF_decomp (k0 : Char) (ks : List Char) :
    ∀ (f : Nat) (cs : List Char) (b : Bool) (r : List Char),
      cs.length < f → scanLastF k0 ks f cs b = some r →
      ∃ pre mid : List Char, cs = pre ++ mid ++ r ∧
        ((b = true ∧ pre = [] ∧ tryAnchor k0 ks (mid ++ r) true = some r) ∨
          tryAnchor k0 ks (mid ++ r) false = some r) ∧
        scanLastF k0 ks (r.length + 1) r false = none := by
  intro f
  induction f with
  | zero => intro cs b r hf; exact absurd hf (Nat.not_lt_zero _)
  | succ f ih =>
    intro cs b r hf hs
    simp only [scanLastF] at hs
    cases ha : tryAnchor k0 ks cs b with
    | some r0 =>
      have hr0 : r0.length < cs.length := tryAnchor_length_lt k0 ks cs r0 b ha
      have hr0f : r0.length < f := Nat.lt_of_lt_of_le hr0 (Nat.lt_succ_iff.mp hf)
      obtain ⟨t, htd⟩ := tryAnchor_suffix k0 ks cs r0 b ha
      rw [ha] at hs
      have hs2 : (match scanLastF k0 ks f r0 false with
          | some r2 => some r2
          | none => some r0) = some r := hs
      cases hrec : scanLastF k0 ks f r0 false with
      | some r2 =>
        rw [hrec] at hs2
        simp only [Option.some.injEq] at hs2
        rw [hs2] at hrec
        obtain ⟨pre2, mid2, hdec, hanch, hnone⟩ := ih r0 false r hr0f hrec
        rcases hanch with ⟨hb, _, _⟩ | hanch
        · exact absurd hb (by simp)
        · refine ⟨t ++ pre2, mid2, ?_, Or.inr hanch, hnone⟩
          rw [← htd, hdec]
          simp [List.append_assoc]
      | none =>
        rw [hrec] at hs2
        simp only [Option.some.injEq] at hs2
        subst hs2
        have hnone : scanLastF k0 ks (r0.length + 1) r0 false = none := by
          rw [← scanLastF_fuel k0 ks f r0 false (r0.length + 1) hr0f (Nat.lt_succ_self _)]
          exact hrec
        cases b with
        | true =>
          refine ⟨[], t, ?_, Or.inl ⟨rfl, rfl, ?_⟩, hnone⟩
          · simp [htd]
          · rw [htd]; exact ha
        | false =>
          refine ⟨[], t, ?_, Or.inr ?_, hnone⟩
          · simp [htd]
          · rw [htd]; exact ha
    | none =>
      cases cs with
      | nil =>
        rw [ha] at hs
        exact Option.noConfusion (show (none : Option (List Char)) = some r from hs)
      | cons c rest =>
        rw [ha] at hs
        obtain ⟨pre2, mid2, hdec, hanch, hnone⟩ :=
          ih rest false r (Nat.lt_of_succ_lt_succ hf)
            (show scanLastF k0 ks f rest false = some r from hs)
        rcases hanch with ⟨hb, _, _⟩ | hanch
        · exact absurd hb (by simp)
        · exact ⟨c :: pre2, mid2, by simp [hdec], Or.inr hanch, hnone⟩

/-! ## Lemmas for the merged retrieval -/

/-- The `seen`-set loop of `merged_similarity_search` computes exactly the
specification's keep-first deduplication of the part not yet seen. -/
theorem dedupSeenDocs_eq_spec :
    ∀ (l : List LCDoc) (seen : List String),
      dedupSeenDocs seen l =
        specDedupByText (l.filter (fun d => !(decide (d.page_content ∈ seen)))) := by
  intro l
  induction l with
  | nil => intro seen; simp [dedupSeenDocs, specDedupByText]
  | cons d ds ih =>
    intro seen
    by_cases hd : d.page_content ∈ seen
    · rw [show dedupSeenDocs seen (d :: ds) = dedupSeenDocs seen ds by
        simp [dedupSeenDocs, hd]]
      rw [show (d :: ds).filter (fun e => !(decide (e.page_content ∈ seen))) =
          ds.filter (fun e => !(decide (e.page_content ∈ seen))) by
        simp [List.filter_cons, hd]]
      exact ih seen
    · rw [show dedupSeenDocs seen (d :: ds) =
          d :: dedupSeenDocs (d.page_content :: seen) ds by
        simp [dedupSeenDocs, hd]]
      rw [show (d :: ds).filter (fun e => !(decide (e.page_content ∈ seen))) =
          d :: ds.filter (fun e => !(decide (e.page_content ∈ seen))) by
        simp [List.filter_cons, hd]]
      rw [specDedupByText, List.filter_filter]
      rw [ih (d.page_content :: seen)]
      congr 2
      apply List.filter_congr
      intro e _
      by_cases h1 : e.page_content = d.page_content <;>
        by_cases h2 : e.page_content ∈ seen <;> simp [h1, h2]

/-- Equality `max(k, k * 2 // n) = max(k, ceil(k * 2 / n))` for `n ≥ 1`, `k ≥ 1`:
the spec states the per-index request count with a ceiling division, the code
uses floor division, and under the outer `max k` the two coincide. -/
theorem perStoreK_eq_ceil (k n : Nat) (hn : 1 ≤ n) :
    perStoreK k n = max k ((k * 2 + (n - 1)) / n) := by
  unfold perStoreK
  rw [Nat.max_eq_left hn]
  rcases Nat.lt_or_ge n 2 with h2 | h2
  · interval_cases n
    simp
  · have hfloor : k * 2 / n ≤ k := by
      calc k * 2 / n ≤ k * 2 / 2 := Nat.div_le_div_left h2 (by norm_num)
        _ = k := by omega
    have hceil : (k * 2 + (n - 1)) / n ≤ k := by
      rw [Nat.div_le_iff_le_mul_add_pred (by omega)]
      have : 2 * k ≤ n * k := Nat.mul_le_mul_right k h2
      omega
    rw [Nat.max_eq_left hfloor, Nat.max_eq_left hceil]

/-! ## Lemmas for the session store -/

theorem cleanupExpiredSessions_idem (now : ℤ) (ss : Sessions) :
    cleanupExpiredSessions now (cleanupExpiredSessions now ss) =
      cleanupExpiredSessions now ss := by
  unfold cleanupExpiredSessions
  rw [List.filter_filter]
  apply List.filter_congr
  intro e _
  simp [Bool.and_self]

theorem lookupSession_setSession_same (ss : Sessions) (sid : String) (d : SessionData) :
    lookupSession (setSession ss sid d) sid = some d := by
  induction ss with
  | nil => simp [setSession, lookupSession]
  | cons e rest ih =>
    obtain ⟨s, v⟩ := e
    by_cases h : s = sid
    · simp [setSession, h, lookupSession]
    · simp only [setSession, if_neg h]
      simpa [lookupSession, h] using ih

theorem lookupSession_updateSession_same (ss : Sessions) (sid : String)
    (f : SessionData → SessionData) (sd : SessionData)
    (h : lookupSession ss sid = some sd) :
    lookupSession (updateSession ss sid f) sid = some (f sd) := by
  induction ss with
  | nil => simp [lookupSession] at h
  | cons e rest ih =>
    obtain ⟨s, v⟩ := e
    by_cases hs : s = sid
    · simp only [lookupSession, if_pos hs, Option.some.injEq] at h
      subst h
      simp [updateSession, hs, lookupSession]
    · simp only [lookupSession, if_neg hs] at h
      simp only [updateSession, if_neg hs, lookupSession]
      exact ih h

theorem lookupDoc_setDoc_same (docs : List (String × VectorStore)) (d : String)
    (vs : VectorStore) : lookupDoc (setDoc docs d vs) d = some vs := by
  induction docs with
  | nil => simp [setDoc, lookupDoc]
  | cons e rest ih =>
    obtain ⟨s, v⟩ := e
    by_cases h : s = d
    · simp [setDoc, h, lookupDoc]
    · simp only [setDoc, if_neg h]
      simpa [lookupDoc, h] using ih

theorem filterMap_eq_filter_filterMap {α β : Type} (f : α → Option β) :
    ∀ l : List α,
      l.filterMap f = (l.filter (fun a => (f a).isSome)).filterMap f := by
  intro l
  induction l with
  | nil => simp
  | cons a as ih =>
    cases hf : f a with
    | none => simp [List.filterMap_cons, List.filter_cons, hf, ih]
    | some b => simp [List.filterMap_cons, List.filter_cons, hf, ih]

theorem length_filterMap_eq_length_filter {α β : Type} (f : α → Option β) :
    ∀ l : List α,
      (l.filterMap f).length = (l.filter (fun a => (f a).isSome)).length := by
  intro l
  induction l with
  | nil => simp
  | cons a as ih =>
    cases hf : f a with
    | none => simp [List.filterMap_cons, List.filter_cons, hf, ih]
    | some b => simp [List.filterMap_cons, List.filter_cons, hf, ih]

/-! ## Lemmas for the citation order and deduplication -/

theorem charLtB_trans {a b c : Char} (h1 : charLtB a b = true)
    (h2 : charLtB b c = true) : charLtB a c = true := by
  simp only [charLtB, decide_eq_true_eq] at *
  exact Nat.lt_trans h1 h2

theorem char_eq_of_not_lt {a b : Char} (h1 : charLtB a b = false)
    (h2 : charLtB b a = false) : a = b := by
  simp only [charLtB, decide_eq_false_iff_not, Nat.not_lt] at h1 h2
  have : a.toNat = b.toNat := Nat.le_antisymm h2 h1
  have := congrArg Char.ofNat this
  rwa [Char.ofNat_toNat, Char.ofNat_toNat] at this

theorem strLtB_trichotomy :
    ∀ as bs : List Char, strLtB as bs = true ∨ as = bs ∨ strLtB bs as = true := by
  intro as
  induction as with
  | nil =>
    intro bs
    cases bs with
    | nil => exact Or.inr (Or.inl rfl)
    | cons b bs => exact Or.inl (by simp [strLtB])
  | cons a as ih =>
    intro bs
    cases bs with
    | nil => exact Or.inr (Or.inr (by simp [strLtB]))
    | cons b bs =>
      cases hab : charLtB a b with
      | true => exact Or.inl (by simp [strLtB, hab])
      | false =>
        cases hba : charLtB b a with
        | true => exact Or.inr (Or.inr (by simp [strLtB, hba]))
        | false =>
          have heq : a = b := char_eq_of_not_lt hab hba
          subst heq
          rcases ih bs with h | h | h
          · exact Or.inl (by simp [strLtB, h])
          · exact Or.inr (Or.inl (by rw [h]))
          · exact Or.inr (Or.inr (by simp [strLtB, h]))

theorem strLtB_trans :
    ∀ as bs cs : List Char, strLtB as bs = true → strLtB bs cs = true →
      strLtB as cs = true := by
  intro as
  induction as with
  | nil =>
    intro bs cs h1 h2
    cases bs with
    | nil => simp [strLtB] at h1
    | cons b bs =>
      cases cs with
      | nil => simp [strLtB] at h2
      | cons c cs => simp [strLtB]
  | cons a as ih =>
    intro bs cs h1 h2
    cases bs with
    | nil => simp [strLtB] at h1
    | cons b bs =>
      cases cs with
      | nil => simp [strLtB] at h2
      | cons c cs =>
        simp only [strLtB, Bool.or_eq_true, Bool.and_eq_true, beq_iff_eq] at h1 h2 ⊢
        rcases h1 with h1 | ⟨hab, h1⟩
        · rcases h2 with h2 | ⟨hbc, h2⟩
          · exact Or.inl (charLtB_trans h1 h2)
          · subst hbc; exact Or.inl h1
        · subst hab
          rcases h2 with h2 | ⟨hbc, h2⟩
          · exact Or.inl h2
          · subst hbc; exact Or.inr ⟨rfl, ih bs cs h1 h2⟩

theorem strLtB_irrefl : ∀ as : List Char, strLtB as as = false := by
  intro as
  induction as with
  | nil => simp [strLtB]
  | cons a as ih => simp [strLtB, ih, charLtB]

theorem pageLeB_total : ∀ p q : Option Nat, pageLeB p q = true ∨ pageLeB q p = true := by
  intro p q
  cases p with
  | none => exact Or.inl (by simp [pageLeB])
  | some m =>
    cases q with
    | none => exact Or.inr (by simp [pageLeB])
    | some n =>
      rcases Nat.le_total m n with h | h
      · exact Or.inl (by simp [pageLeB, h])
      · exact Or.inr (by simp [pageLeB, h])

theorem pageLeB_trans : ∀ p q r : Option Nat, pageLeB p q = true →
    pageLeB q r = true → pageLeB p r = true := by
  intro p q r h1 h2
  cases p with
  | none => simp [pageLeB]
  | some m =>
    cases q with
    | none => simp [pageLeB] at h1
    | some n =>
      cases r with
      | none => simp [pageLeB] at h2
      | some o =>
        simp only [pageLeB, decide_eq_true_eq] at *
        exact Nat.le_trans h1 h2

instance : IsTotal Citation citLe := by
  constructor
  intro a b
  unfold citLe citLeB
  rcases strLtB_trichotomy a.source.data b.source.data with h | h | h
  · exact Or.inl (by simp [h])
  · have hs : a.source = b.source := by
      cases a with
      | mk s1 p1 =>
        cases b with
        | mk s2 p2 =>
          cases s1
          cases s2
          exact congrArg String.mk h
    rcases pageLeB_total a.page b.page with hp | hp
    · exact Or.inl (by simp [hs, hp])
    · exact Or.inr (by simp [hs.symm, hp])
  · exact Or.inr (by simp [h])

instance : IsTrans Citation citLe := by
  constructor
  intro a b c h1 h2
  unfold citLe citLeB at *
  simp only [Bool.or_eq_true, Bool.and_eq_true, beq_iff_eq] at h1 h2 ⊢
  rcases h1 with h1 | ⟨hab, h1⟩
  · rcases h2 with h2 | ⟨hbc, h2⟩
    · exact Or.inl (strLtB_trans _ _ _ h1 h2)
    · rw [← hbc]
      exact Or.inl h1
  · rw [hab]
    rcases h2 with h2 | ⟨hbc, h2⟩
    · exact Or.inl h2
    · exact Or.inr ⟨hbc, pageLeB_trans _ _ _ h1 h2⟩

theorem mem_dedupCitGo :
    ∀ (l : List Citation) (seen : List Citation) (x : Citation),
      x ∈ dedupCitGo seen l ↔ (x ∈ l ∧ x ∉ seen) := by
  intro l
  induction l with
  | nil => intro seen x; simp [dedupCitGo]
  | cons c cs ih =>
    intro seen x
    by_cases hc : c ∈ seen
    · rw [show dedupCitGo seen (c :: cs) = dedupCitGo seen cs by simp [dedupCitGo, hc]]
      rw [ih seen x]
      constructor
      · rintro ⟨h1, h2⟩; exact ⟨List.mem_cons_of_mem c h1, h2⟩
      · rintro ⟨h1, h2⟩
        rcases List.mem_cons.mp h1 with h | h
        · subst h; exact absurd hc h2
        · exact ⟨h, h2⟩
    · rw [show dedupCitGo seen (c :: cs) = c :: dedupCitGo (c :: seen) cs by
        simp [dedupCitGo, hc]]
      simp only [List.mem_cons, ih (c :: seen) x]
      constructor
      · rintro (h | ⟨h1, h2⟩)
        · subst h; exact ⟨Or.inl rfl, hc⟩
        · exact ⟨Or.inr h1, fun hx => h2 (Or.inr hx)⟩
      · rintro ⟨h1 | h1, h2⟩
        · exact Or.inl h1
        · by_cases hxc : x = c
          · exact Or.inl hxc
          · exact Or.inr ⟨h1, by simp [hxc, h2]⟩

theorem nodup_dedupCitGo :
    ∀ (l : List Citation) (seen : List Citation), (dedupCitGo seen l).Nodup := by
  intro l
  induction l with
  | nil => intro seen; simp [dedupCitGo]
  | cons c cs ih =>
    intro seen
    by_cases hc : c ∈ seen
    · rw [show dedupCitGo seen (c :: cs) = dedupCitGo seen cs by simp [dedupCitGo, hc]]
      exact ih seen
    · rw [show dedupCitGo seen (c :: cs) = c :: dedupCitGo (c :: seen) cs by
        simp [dedupCitGo, hc]]
      refine List.nodup_cons.mpr ⟨?_, ih (c :: seen)⟩
      intro hmem
      exact ((mem_dedupCitGo cs (c :: seen) c).mp hmem).2 (List.mem_cons_self c seen)

/-- The sanitizer pipeline never returns the empty string when its fallback
is non-empty. -/
theorem cleanPipeline_ne_empty (k0 : Char) (ks : List Char) (fb : String)
    (s : String) (hfb : fb ≠ "") : cleanPipeline k0 ks fb s ≠ "" := by
  simp only [cleanPipeline]
  split
  · exact hfb
  · next h =>
    intro hcontra
    apply h
    have hdata := congrArg String.data hcontra
    simp only at hdata
    simp [hdata]

/-! ## The claims -/

/-- C1: multi-document retrieve returns exactly the concatenation of the
per-index candidate lists in index-query order, deduplicated by exact chunk
text keeping first occurrences, truncated to at most `k * numIndices`
entries; an empty index list yields an empty result; two indices each
returning the same single chunk text yield exactly one result. -/
theorem claim_C1_merged_retrieve (stores : List VectorStore) (query : String)
    (k : Nat) (hk : 1 ≤ k) :
    mergedSimilaritySearch stores query k =
      (specDedupByText ((stores.map (fun vs =>
        vs.search query (perStoreK k stores.length))).flatten)).take
        (k * stores.length) ∧
    mergedSimilaritySearch [] query k = [] ∧
    (∀ (s1 s2 : VectorStore) (d1 d2 : LCDoc), d1.page_content = d2.page_content →
      s1.search query (perStoreK k 2) = [d1] → s2.search query (perStoreK k 2) = [d2] →
      mergedSimilaritySearch [s1, s2] query k = [d1]) := by
  refine ⟨?_, rfl, ?_⟩
  · simp only [mergedSimilaritySearch]
    rw [dedupSeenDocs_eq_spec _ []]
    congr 2
    apply (List.filter_eq_self).mpr
    intro a _
    simp
  · intro s1 s2 d1 d2 hpc h1 h2
    have hlen : ([s1, s2] : List VectorStore).length = 2 := rfl
    simp only [mergedSimilaritySearch]
    rw [hlen]
    simp only [List.map_cons, List.map_nil, h1, h2, List.flatten]
    have hdedup : dedupSeenDocs [] ([d1] ++ ([d2] ++ [])) = [d1] := by
      simp [dedupSeenDocs, hpc]
    rw [hdedup]
    apply List.take_of_length_le
    simp
    omega

/-- C1 witness: two indices each returning the same single chunk text
deduplicate to exactly one result at `k = 1`. -/
theorem claim_C1_witness :
    mergedSimilaritySearch [wStoreConst "dup", wStoreConst "dup"] "q" 1 = [⟨"dup"⟩] :=
  (claim_C1_merged_retrieve [wStoreConst "dup", wStoreConst "dup"] "q" 1
      (by decide)).2.2
    (wStoreConst "dup") (wStoreConst "dup") ⟨"dup"⟩ ⟨"dup"⟩ rfl rfl rfl

/-- C2: for every non-empty index list and `k > 0`, the retriever requests
from each index exactly `perIndexK = max(k, ceil(k * 2 / numIndices))`
candidates — the code's floor division coincides with the spec's ceiling
under the outer `max`. -/
theorem claim_C2_per_index_request (stores : List VectorStore) (query : String)
    (k : Nat) (hs : stores ≠ []) (_hk : 1 ≤ k) :
    mergedSimilaritySearch stores query k =
      (dedupSeenDocs [] ((stores.map (fun vs =>
        vs.search query (max k ((k * 2 + (stores.length - 1)) / stores.length)))).flatten)).take
        (k * stores.length) := by
  have hn : 1 ≤ stores.length := List.length_pos.mpr hs
  simp only [mergedSimilaritySearch]
  rw [perStoreK_eq_ceil k stores.length hn]

/-- C2 witness: a single index is asked for `max(1, ceil(2/1)) = 2`
candidates. -/
theorem claim_C2_witness :
    mergedSimilaritySearch [wStoreAt2] "q" 1 =
      (dedupSeenDocs [] (([wStoreAt2].map (fun vs => vs.search "q"
        (max 1 ((1 * 2 + (([wStoreAt2] : List VectorStore).length - 1)) /
          ([wStoreAt2] : List VectorStore).length)))).flatten)).take
        (1 * ([wStoreAt2] : List VectorStore).length) :=
  claim_C2_per_index_request [wStoreAt2] "q" 1 (List.cons_ne_nil _ _) (by decide)

/-- C3: `toSimilarity` clamps `1 - d/2` into `[0,1]` with the stated anchor
values; `confidence` of the empty list is `0`; on `[0, 0.5, 1, 3]` it uses
only the three smallest distances, whose similarities `[1, 0.75, 0.5]`
average `0.75`, giving confidence `75.0`. -/
theorem claim_C3_confidence_scorer :
    (∀ d : ℚ, 0 ≤ d → 0 ≤ toSimilarity d ∧ toSimilarity d ≤ 1) ∧
    toSimilarity 0 = 1 ∧ toSimilarity 2 = 0 ∧ toSimilarity 4 = 0 ∧
    confidence [] = 0 ∧
    (List.insertionSort (· ≤ ·) [(0 : ℚ), 1/2, 1, 3]).take 3 = [0, 1/2, 1] ∧
    [(0 : ℚ), 1/2, 1].map toSimilarity = [1, 3/4, 1/2] ∧
    ((1 : ℚ) + 3/4 + 1/2) / 3 = 3/4 ∧
    confidence [0, 1/2, 1, 3] = 75 := by
  refine ⟨?_, ?_, ?_, ?_, ?_, ?_, ?_, ?_, ?_⟩
  · intro d _
    exact ⟨le_max_left 0 _, max_le (by norm_num) (min_le_left 1 _)⟩
  · norm_num [toSimilarity]
  · norm_num [toSimilarity]
  · norm_num [toSimilarity]
  · simp [confidence]
  · norm_num [List.insertionSort, List.orderedInsert]
  · norm_num [toSimilarity]
  · norm_num
  · norm_num [confidence, List.insertionSort, List.orderedInsert, toSimilarity,
      roundTo1, roundQ]
    rw [show Int.fdiv 1501 2 = 750 from by decide]
    norm_num

/-- C3 witness: the bounds hold at the concrete distance `0`. -/
theorem claim_C3_witness :
    (0 : ℚ) ≤ 0 ∧ (0 ≤ toSimilarity 0 ∧ toSimilarity 0 ≤ 1) :=
  ⟨le_refl 0, claim_C3_confidence_scorer.1 0 (le_refl 0)⟩

/-- C4: the citation builder emits one citation per distinct
`(sourceName, page)` pair with 1-based pages, sorted ascending by
`(source, page)`, an empty sequence for no chunks, and the concrete
three-chunk example collapses to exactly two citations in order. -/
theorem claim_C4_citation_builder :
    buildCitations [] = [] ∧
    (∀ chunks : List SpecChunk, List.Sorted citLe (buildCitations chunks)) ∧
    (∀ chunks : List SpecChunk, (buildCitations chunks).Nodup) ∧
    (∀ (chunks : List SpecChunk) (c : Citation),
      c ∈ buildCitations chunks ↔ ∃ ch ∈ chunks, toCitation ch = c) ∧
    (∀ ch : SpecChunk, toCitation ch = ⟨ch.sourceName, ch.page.map (fun p => p + 1)⟩) ∧
    buildCitations [⟨"a.pdf", some 0⟩, ⟨"a.pdf", some 0⟩, ⟨"b.pdf", some 2⟩] =
      [⟨"a.pdf", some 1⟩, ⟨"b.pdf", some 3⟩] := by
  refine ⟨rfl, ?_, ?_, ?_, fun ch => rfl, by decide⟩
  · intro chunks
    exact List.sorted_insertionSort citLe _
  · intro chunks
    exact ((List.perm_insertionSort citLe _).nodup_iff).mpr
      (nodup_dedupCitGo (chunks.map toCitation) [])
  · intro chunks c
    unfold buildCitations
    rw [(List.perm_insertionSort citLe _).mem_iff, mem_dedupCitGo]
    simp [List.mem_map]

/-- C6: the sanitizer is total and never returns an empty string for any
input; empty and prompt-echo-only inputs yield the fixed mode-specific
fallback message. -/
theorem claim_C6_sanitizer_nonempty :
    (∀ s : String, extractFinalAnswer s ≠ "") ∧
    (∀ s : String, extractFinalSummary s ≠ "") ∧
    (∀ s : String, extractComparison s ≠ "") ∧
    (∀ s : String, extractCleanAnswerMain s ≠ "") ∧
    extractFinalAnswer "" = "I could not find a relevant answer in the document." ∧
    extractFinalAnswer "Context: foo\nQuestion: bar" =
      "I could not find a relevant answer in the document." ∧
    extractCleanAnswerMain "" = "I could not find a relevant answer in the document." ∧
    extractCleanAnswerMain "Context: foo\nQuestion: bar" =
      "I could not find a relevant answer in the document." := by
  refine ⟨?_, ?_, ?_, ?_, by decide, by decide, by decide, by decide⟩
  · intro s
    exact cleanPipeline_ne_empty _ _ _ s (by decide)
  · intro s
    exact cleanPipeline_ne_empty _ _ _ s (by decide)
  · intro s
    exact cleanPipeline_ne_empty _ _ _ s (by decide)
  · intro s
    simp only [extractCleanAnswerMain]
    split
    · decide
    · next h =>
      intro hcontra
      apply h
      have hdata := congrArg String.data hcontra
      simp only at hdata
      simp [hdata]

/-- C8: every externally visible operation first sweeps the session store
(the sweep removes exactly the sessions with `now - lastAccessed > TTL`, so
each operation behaves as if run on the swept store), and looking up an
absent or already-swept session id yields the fixed "please upload first"
style message rather than an error. -/
theorem claim_C8_sweep_then_lookup :
    (∀ (now : ℤ) (ss : Sessions) (sid : String) (d : SessionData),
      (sid, d) ∈ cleanupExpiredSessions now ss →
        ¬(now - d.last_accessed > SESSION_TIMEOUT)) ∧
    (∀ (now : ℤ) (ss : Sessions) (sid : String) (d : SessionData),
      (sid, d) ∈ ss → ¬(now - d.last_accessed > SESSION_TIMEOUT) →
        (sid, d) ∈ cleanupExpiredSessions now ss) ∧
    (∀ (gen : String → String) (ss : Sessions) (now : ℤ) (q sid : String)
      (dids : List String) (hist : List ChatMsg),
      askQuestion gen ss now q sid dids hist =
        askQuestion gen (cleanupExpiredSessions now ss) now q sid dids hist ∧
      summarizePdf gen ss now sid dids =
        summarizePdf gen (cleanupExpiredSessions now ss) now sid dids ∧
      compareDocuments gen ss now sid dids =
        compareDocuments gen (cleanupExpiredSessions now ss) now sid dids) ∧
    (∀ (buildIndex : List LCDoc → VectorStore) (docId : String) (ss : Sessions)
      (now : ℤ) (sid : String) (chunks : List LCDoc),
      processPdf buildIndex docId ss now sid chunks =
        processPdf buildIndex docId (cleanupExpiredSessions now ss) now sid chunks) ∧
    (∀ (gen : String → String) (ss : Sessions) (now : ℤ) (q sid : String)
      (dids : List String) (hist : List ChatMsg),
      lookupSession (cleanupExpiredSessions now ss) sid = none →
      (askQuestion gen ss now q sid dids hist).2 =
        "Session expired or no PDF uploaded for this session." ∧
      (summarizePdf gen ss now sid dids).2 =
        "Session expired or no PDF uploaded for this session." ∧
      (compareDocuments gen ss now sid dids).2 =
        "Session expired or no PDFs uploaded for this session.") := by
  refine ⟨?_, ?_, ?_, ?_, ?_⟩
  · intro now ss sid d hmem
    have := (List.mem_filter.mp hmem).2
    simpa using this
  · intro now ss sid d hmem hlive
    exact List.mem_filter.mpr ⟨hmem, by simpa using hlive⟩
  · intro gen ss now q sid dids hist
    refine ⟨?_, ?_, ?_⟩
    · simp only [askQuestion, cleanupExpiredSessions_idem]
    · simp only [summarizePdf, cleanupExpiredSessions_idem]
    · simp only [compareDocuments, cleanupExpiredSessions_idem]
  · intro buildIndex docId ss now sid chunks
    simp only [processPdf, cleanupExpiredSessions_idem]
  · intro gen ss now q sid dids hist h
    refine ⟨?_, ?_, ?_⟩
    · simp [askQuestion, h]
    · simp [summarizePdf, h]
    · simp [compareDocuments, h]

/-- C8 witness: on the empty store, the three read paths return the fixed
messages. -/
theorem claim_C8_witness :
    (askQuestion id [] 0 "q" "s" [] []).2 =
      "Session expired or no PDF uploaded for this session." ∧
    (summarizePdf id [] 0 "s" []).2 =
      "Session expired or no PDF uploaded for this session." ∧
    (compareDocuments id [] 0 "s" []).2 =
      "Session expired or no PDFs uploaded for this session." :=
  claim_C8_sweep_then_lookup.2.2.2.2 id [] 0 "q" "s" [] [] rfl

/-- C9: ingestion with an empty chunk sequence fails with the empty-input
error and leaves the session store unchanged apart from the always-performed
sweep (exactly unchanged when no session is expired: no session created, no
document added); a non-empty chunk sequence succeeds with the given fresh
document id, under which the new index is attached to the session. -/
theorem claim_C9_ingest (buildIndex : List LCDoc → VectorStore)
    (newDocId : String) (ss : Sessions) (now : ℤ) (sid : String)
    (chunks : List LCDoc) :
    (chunks = [] →
      processPdf buildIndex newDocId ss now sid chunks =
        (cleanupExpiredSessions now ss,
          .error "No text chunks generated from the PDF. Please check your file.") ∧
      ((∀ e ∈ ss, ¬(now - e.2.last_accessed > SESSION_TIMEOUT)) →
        (processPdf buildIndex newDocId ss now sid chunks).1 = ss)) ∧
    (chunks ≠ [] →
      (processPdf buildIndex newDocId ss now sid chunks).2 =
        .ok "PDF processed successfully" newDocId ∧
      ∃ sd : SessionData,
        lookupSession (processPdf buildIndex newDocId ss now sid chunks).1 sid =
          some sd ∧
        lookupDoc sd.docs newDocId = some (buildIndex chunks) ∧
        sd.last_accessed = now) := by
  constructor
  · intro he
    subst he
    constructor
    · simp [processPdf]
    · intro hall
      simp only [processPdf, List.isEmpty_nil, if_pos]
      apply List.filter_eq_self.mpr
      intro e he
      simpa using hall e he
  · intro hne
    have hne2 : chunks.isEmpty = false := by
      cases chunks with
      | nil => exact absurd rfl hne
      | cons c cs => rfl
    simp only [processPdf, hne2, Bool.false_eq_true, if_neg, ite_false]
    cases hls : lookupSession (cleanupExpiredSessions now ss) sid with
    | none =>
      simp only [hls, Option.isNone_none, if_pos]
      refine ⟨by trivial, ⟨setDoc [] newDocId (buildIndex chunks), now⟩, ?_, ?_, by trivial⟩
      · have h1 := lookupSession_setSession_same (cleanupExpiredSessions now ss) sid
          ⟨[], now⟩
        have h2 := lookupSession_updateSession_same _ sid
          (fun sd => { sd with docs := setDoc sd.docs newDocId (buildIndex chunks) })
          _ h1
        have h3 := lookupSession_updateSession_same _ sid
          (fun sd => { sd with last_accessed := now }) _ h2
        exact h3
      · exact lookupDoc_setDoc_same [] newDocId (buildIndex chunks)
    | some sd0 =>
      simp only [hls, Option.isNone_some, if_neg, Bool.false_eq_true, ite_false]
      refine ⟨by trivial, ⟨setDoc sd0.docs newDocId (buildIndex chunks), now⟩, ?_, ?_, by trivial⟩
      · have h2 := lookupSession_updateSession_same _ sid
          (fun sd => { sd with docs := setDoc sd.docs newDocId (buildIndex chunks) })
          _ hls
        have h3 := lookupSession_updateSession_same _ sid
          (fun sd => { sd with last_accessed := now }) _ h2
        exact h3
      · exact lookupDoc_setDoc_same sd0.docs newDocId (buildIndex chunks)

/-- C9 witness: ingesting one chunk into a fresh store attaches it under the
given document id. -/
theorem claim_C9_witness :
    ([(⟨"text"⟩ : LCDoc)] ≠ []) ∧
    ((processPdf (fun _ => wStoreConst "t") "d1" [] 0 "s" [⟨"text"⟩]).2 =
        .ok "PDF processed successfully" "d1" ∧
      ∃ sd : SessionData,
        lookupSession (processPdf (fun _ => wStoreConst "t") "d1" [] 0 "s"
          [⟨"text"⟩]).1 "s" = some sd ∧
        lookupDoc sd.docs "d1" = some ((fun _ => wStoreConst "t") [(⟨"text"⟩ : LCDoc)]) ∧
        sd.last_accessed = 0) :=
  ⟨by decide,
    (claim_C9_ingest (fun _ => wStoreConst "t") "d1" [] 0 "s" [⟨"text"⟩]).2
      (by decide)⟩

/-- C9 counterexample: with an expired session in the store, ingestion of an
empty chunk sequence does change the session store — the TTL sweep that runs
first removes the expired session even though ingestion fails. -/
theorem claim_C9_counterexample :
    (processPdf (fun _ => wStoreConst "t") "d1" [("old", ⟨[], 0⟩)] 5000 "s" []).1 =
      ([] : Sessions) ∧
    ([("old", (⟨[], 0⟩ : SessionData))] : Sessions) ≠ ([] : Sessions) :=
  ⟨rfl, by simp⟩

/-- C10: when `doc_ids` is a non-empty explicit list, the resolved stores are
exactly the session's stores for the requested ids that exist, in requested
order (missing ids silently skipped, one store per existing id); if none of
the requested ids exist, `/ask` returns the fixed "No documents found"
message without raising. -/
theorem claim_C10_doc_id_filter (gen : String → String) (ss : Sessions)
    (now : ℤ) (q sid : String) (dids : List String) (hist : List ChatMsg)
    (sd : SessionData) :
    (lookupSession ss sid = some sd → dids ≠ [] →
      getSessionDocs ss sid dids =
        (dids.filter (fun d => (lookupDoc sd.docs d).isSome)).filterMap
          (fun d => lookupDoc sd.docs d) ∧
      (getSessionDocs ss sid dids).length =
        (dids.filter (fun d => (lookupDoc sd.docs d).isSome)).length) ∧
    (lookupSession (cleanupExpiredSessions now ss) sid = some sd → dids ≠ [] →
      (∀ d ∈ dids, lookupDoc sd.docs d = none) →
      (askQuestion gen ss now q sid dids hist).2 =
        "No documents found for the selected session.") := by
  constructor
  · intro h hne
    have hne2 : dids.isEmpty = false := by
      cases dids with
      | nil => exact absurd rfl hne
      | cons d ds => rfl
    simp only [getSessionDocs, h, hne2, Bool.false_eq_true, if_neg, ite_false]
    exact ⟨filterMap_eq_filter_filterMap _ dids,
      length_filterMap_eq_length_filter _ dids⟩
  · intro h hne hall
    have hne2 : dids.isEmpty = false := by
      cases dids with
      | nil => exact absurd rfl hne
      | cons d ds => rfl
    have hstores : getSessionDocs
        (setSession (cleanupExpiredSessions now ss) sid
          { sd with last_accessed := now }) sid dids = [] := by
      simp only [getSessionDocs, lookupSession_setSession_same, hne2,
        Bool.false_eq_true, if_neg, ite_false]
      exact List.filterMap_eq_nil_iff.mpr hall
    simp [askQuestion, h, hstores]

/-- C10 witness: requesting only an id that is not in the live session
yields the fixed message. -/
theorem claim_C10_witness :
    (askQuestion id [("s", ⟨[("dA", wStoreConst "t")], 0⟩)] 0 "q" "s" ["zz"] []).2 =
      "No documents found for the selected session." :=
  (claim_C10_doc_id_filter id [("s", ⟨[("dA", wStoreConst "t")], 0⟩)] 0 "q" "s"
      ["zz"] [] ⟨[("dA", wStoreConst "t")], 0⟩).2 rfl
    (by decide)
    (fun d hd => by rw [List.mem_singleton.mp hd]; rfl)

/-- C5 counterexample: on `"Answer:\nAnswer: x"` the marker-split step of
`_split_on_marker` keeps `"Answer: x"` — the second line-start marker is not
counted, because the first match's trailing `\s*` consumed the newline that
anchors it — whereas discarding through the LAST line-start occurrence (the
claim's reading, `specLastSplit`) would keep `"x"`. The marker step of
`extract_clean_answer` (main.py) even keeps everything after the FIRST
occurrence: on `"Answer: a\nAnswer: b"` it keeps `"a\nAnswer: b"` where the
claim demands `"b"`. -/
theorem claim_C5_counterexample :
    (splitOnMarker 'a' "nswer".data "Answer:\nAnswer: x".data = "Answer: x".data ∧
      specLastSplit 'a' "nswer".data "Answer:\nAnswer: x".data = "x".data ∧
      "Answer: x".data ≠ "x".data) ∧
    (splitOnMarkerMainFirst 'a' "nswer".data "Answer: a\nAnswer: b".data =
        "a\nAnswer: b".data ∧
      specLastSplit 'a' "nswer".data "Answer: a\nAnswer: b".data = "b".data ∧
      "a\nAnswer: b".data ≠ "b".data) :=
  ⟨⟨by decide, by decide, by decide⟩, ⟨by decide, by decide, by decide⟩⟩

/-- C5 (amended): the marker-split step scans left to right for
non-overlapping matches and discards everything up to and including the last
match found by this scan, stripping the remainder, in which no further
newline-anchored match exists; an occurrence whose anchoring newline was
consumed by the previous match's trailing whitespace is not counted. If the
marker keyword occurs nowhere in the text, the text is unchanged. -/
theorem claim_C5_amended (k0 : Char) (ks cs : List Char) :
    (containsKw k0 ks cs = false → splitOnMarker k0 ks cs = cs) ∧
    (splitOnMarker k0 ks cs = cs ∨
      ∃ pre mid post : List Char, cs = pre ++ mid ++ post ∧
        ((pre = [] ∧ tryAnchor k0 ks (mid ++ post) true = some post) ∨
          tryAnchor k0 ks (mid ++ post) false = some post) ∧
        splitOnMarker k0 ks cs = stripChars post ∧
        scanLastF k0 ks (post.length + 1) post false = none) := by
  constructor
  · intro hk
    unfold splitOnMarker
    rw [scanLastF_none_of_no_kw k0 ks _ cs true hk]
  · cases h : scanLastF k0 ks (cs.length + 1) cs true with
    | none =>
      exact Or.inl (by unfold splitOnMarker; rw [h])
    | some r =>
      obtain ⟨pre, mid, hdec, hanch, hnone⟩ :=
        scanLastF_decomp k0 ks (cs.length + 1) cs true r (Nat.lt_succ_self _) h
      refine Or.inr ⟨pre, mid, r, hdec, ?_,
        by unfold splitOnMarker; rw [h], hnone⟩
      rcases hanch with ⟨_, hp, ha⟩ | ha
      · exact Or.inl ⟨hp, ha⟩
      · exact Or.inr ha

/-- C5 witness: a marker-free text passes through the split unchanged. -/
theorem claim_C5_witness :
    containsKw 'a' "nswer".data "hello world".data = false ∧
    splitOnMarker 'a' "nswer".data "hello world".data = "hello world".data :=
  ⟨by decide,
    (claim_C5_amended 'a' "nswer".data "hello world".data).1 (by decide)⟩

/-- C7 counterexample: the sanitizer is not idempotent on every
duplicated-marker input — on a triple-stacked answer marker, one pass leaves
`"Answer: x"` and a second pass strips further to `"x"`. -/
theorem claim_C7_counterexample :
    extractFinalAnswer (extractFinalAnswer "Answer: Answer: Answer: x") ≠
      extractFinalAnswer "Answer: Answer: Answer: x" := by decide

set_option maxRecDepth 16384 in
/-- C7 (amended): the sanitizer is idempotent on representative
echoed-prompt inputs — a doubled answer marker, an echoed Context/Question
prompt with no answer content (which falls back to the fixed message), and a
fully echoed instruction prompt ending in a final marker — though not on
arbitrary marker repetitions. -/
theorem claim_C7_amended :
    extractFinalAnswer (extractFinalAnswer "Answer: Answer: Paris.") =
      extractFinalAnswer "Answer: Answer: Paris." ∧
    extractFinalAnswer (extractFinalAnswer "Context: foo\nQuestion: bar") =
      extractFinalAnswer "Context: foo\nQuestion: bar" ∧
    extractFinalAnswer (extractFinalAnswer
        "Answer the question using only the document below. Be brief and direct.\n\nDocument: The capital of France is Paris.\n\nQuestion: What is the capital?\nAnswer: Paris") =
      extractFinalAnswer
        "Answer the question using only the document below. Be brief and direct.\n\nDocument: The capital of France is Paris.\n\nQuestion: What is the capital?\nAnswer: Paris" :=
  ⟨by decide, by decide, by decide⟩

end PdfQaBot
